import Mathlib

/-!
Verification of the voice-assistant capture and playback pipeline.

Shallow embedding of the C sources in src/main (main.c, audio_handler.c,
udp_client.c).  Machine integers are modelled as Nat or Int with explicit
reduction modulo the word size exactly where the C code can wrap
(uint32_t counters, the uint64_t sum of squares); fixed constants keep
the names used in the source.
-/

namespace VoiceAssist

/-- Modulus of the 32-bit unsigned integer type used for sequence numbers
and the lost-packet counter. -/
def UINT32_MOD : Nat := 4294967296

/-- Modulus of the 64-bit unsigned accumulator used by audio_calculate_rms. -/
def UINT64_MOD : Nat := 18446744073709551616

/-- RMS_THRESHOLD_NORMAL in main.c: the enter-speaking loudness threshold. -/
def RMS_THRESHOLD_NORMAL : Nat := 100

/-- RMS_THRESHOLD_INTERRUPT in main.c: the barge-in loudness threshold. -/
def RMS_THRESHOLD_INTERRUPT : Nat := 400

/-- AUDIO_RMS_STOP_THRESHOLD in audio_handler.h: the silence comparison
threshold used while the user is speaking. -/
def AUDIO_RMS_STOP_THRESHOLD : Nat := 500

/-- SILENCE_DURATION_MS in audio_handler.h. -/
def SILENCE_DURATION_MS : Int := 5000

/-- AUDIO_QUEUE_LENGTH in audio_handler.h: capacity of the playback queue. -/
def AUDIO_QUEUE_LENGTH : Nat := 3500

/-- MIN_PREBUFFER_CHUNKS in queue_playback_task. -/
def MIN_PREBUFFER_CHUNKS : Nat := 10

/-- voice_state_t from udp_client.h. -/
inductive VoiceState where
  | idle
  | userSpeaking
  | aiSpeaking
deriving DecidableEq

/-- The side effects that set_voice_state in main.c can trigger while it
holds the state mutex: audio_playback_queue_stop, audio_playback_queue_start
and udp_send_interrupt_signal. -/
inductive SideEffect where
  | playbackStop
  | playbackStart
  | sendInterrupt
deriving DecidableEq

/-- set_voice_state from main.c.  The shared variable current_state is made
an explicit argument and the function returns the new value of that variable
together with the list of side effects executed, in program order.  The
mutex around the body serialises calls, so one call is one atomic step. -/
def set_voice_state (current new : VoiceState) : VoiceState × List SideEffect :=
  if current = new then
    (current, [])
  else
    match new with
    | VoiceState.idle => (new, [SideEffect.playbackStop])
    | VoiceState.userSpeaking =>
        if current = VoiceState.aiSpeaking then
          (new, [SideEffect.playbackStop, SideEffect.sendInterrupt])
        else
          (new, [])
    | VoiceState.aiSpeaking => (new, [SideEffect.playbackStart])

/-- The per-iteration mutable locals of voice_assistant_task in main.c,
together with the shared voice state it reads and writes. -/
structure VaState where
  vstate : VoiceState
  silence_start : Int
  sequence : Nat
deriving DecidableEq

/-- Observable actions of one iteration of voice_assistant_task: a call of
udp_send_audio_packet with the sequence number attached to the block, and
the side effects run by set_voice_state. -/
inductive VaEvent where
  | sendAudio (seq : Nat)
  | effect (e : SideEffect)
deriving DecidableEq

/-- One iteration of the switch statement in voice_assistant_task (main.c),
evaluated after a block has been captured: rms is the loudness computed for
the block and now is the value returned by get_time_ms during this
iteration.  Returns the updated state and the events of the iteration in
program order.  The uint32_t sequence counter increments modulo 2^32. -/
def voice_assistant_step (rms : Nat) (now : Int) (s : VaState) :
    VaState × List VaEvent :=
  match s.vstate with
  | VoiceState.idle =>
      if RMS_THRESHOLD_NORMAL < rms then
        let t := set_voice_state s.vstate VoiceState.userSpeaking
        (⟨t.1, 0, 1⟩, (t.2.map VaEvent.effect) ++ [VaEvent.sendAudio 0])
      else
        (s, [])
  | VoiceState.userSpeaking =>
      if rms < AUDIO_RMS_STOP_THRESHOLD then
        if s.silence_start = 0 then
          (⟨s.vstate, now, (s.sequence + 1) % UINT32_MOD⟩,
            [VaEvent.sendAudio s.sequence])
        else if SILENCE_DURATION_MS < now - s.silence_start then
          let t := set_voice_state s.vstate VoiceState.idle
          (⟨t.1, 0, s.sequence⟩, t.2.map VaEvent.effect)
        else
          (⟨s.vstate, s.silence_start, (s.sequence + 1) % UINT32_MOD⟩,
            [VaEvent.sendAudio s.sequence])
      else
        (⟨s.vstate, 0, (s.sequence + 1) % UINT32_MOD⟩,
          [VaEvent.sendAudio s.sequence])
  | VoiceState.aiSpeaking =>
      if RMS_THRESHOLD_INTERRUPT < rms then
        let t := set_voice_state s.vstate VoiceState.userSpeaking
        (⟨t.1, s.silence_start, 1⟩,
          (t.2.map VaEvent.effect) ++ [VaEvent.sendAudio 0])
      else
        (s, [])

/-- audio_chunk_t from audio_handler.h: the copied payload bytes (at most
1440), the producer sequence number and the final-block flag.  The length
field of the struct equals data.length after the memcpy in push. -/
structure AudioChunk where
  data : List Nat
  sequence : Nat
  is_last_chunk : Bool
deriving DecidableEq

/-- Return values of audio_playback_queue_push (esp_err_t). -/
inductive EspErr where
  | ok
  | errNoMem
  | errInvalidState
deriving DecidableEq

/-- The chunk built by audio_playback_queue_push from its arguments: the
first min(len, 1440) payload bytes are copied into the chunk. -/
def mkChunk (b : List Nat × Nat × Bool) : AudioChunk :=
  ⟨b.1.take 1440, b.2.1, b.2.2⟩

/-- audio_playback_queue_push from audio_handler.c, acting on the queue
contents (front of the FIFO at the head of the list).  Oversized payloads
are truncated to 1440 bytes; xQueueSend with zero timeout appends iff a
free slot exists and otherwise the chunk is dropped with ESP_ERR_NO_MEM
returned.  The null-handle guard of the C code corresponds to a queue that
was never created and is outside this model. -/
def audio_playback_queue_push (q : List AudioChunk) (data : List Nat)
    (seq : Nat) (is_last : Bool) : List AudioChunk × EspErr :=
  let chunk := mkChunk (data, seq, is_last)
  if q.length < AUDIO_QUEUE_LENGTH then
    (q ++ [chunk], EspErr.ok)
  else
    (q, EspErr.errNoMem)

/-- Repeated pushes of a list of (payload, sequence, final) blocks into the
queue, returning the final queue contents and the number of dropped
blocks. -/
def pushAll : List AudioChunk → List (List Nat × Nat × Bool) → List AudioChunk × Nat
  | q, [] => (q, 0)
  | q, b :: rest =>
      let r := audio_playback_queue_push q b.1 b.2.1 b.2.2
      let t := pushAll r.1 rest
      (t.1, (if r.2 = EspErr.ok then 0 else 1) + t.2)

/-- While the queue has room for the whole batch, pushAll appends every
block (truncated to 1440 bytes) in order and drops nothing. -/
lemma pushAll_no_drop (blocks : List (List Nat × Nat × Bool))
    (q : List AudioChunk) (h : q.length + blocks.length ≤ AUDIO_QUEUE_LENGTH) :
    pushAll q blocks = (q ++ blocks.map mkChunk, 0) := by
  induction blocks generalizing q with
  | nil => simp [pushAll]
  | cons b rest ih =>
      have hq : q.length < AUDIO_QUEUE_LENGTH := by
        simp only [List.length_cons] at h
        omega
      have hrec : (q ++ [mkChunk b]).length + rest.length ≤ AUDIO_QUEUE_LENGTH := by
        simp only [List.length_append, List.length_cons] at h ⊢
        simp only [List.length_nil]
        omega
      simp only [pushAll, audio_playback_queue_push, if_pos hq, ih _ hrec,
        List.map_cons, List.append_assoc, List.singleton_append]
      simp

/-- Pushing a concatenation of two batches first pushes the left batch and
continues with the right batch on the resulting queue, summing drops. -/
lemma pushAll_append (q : List AudioChunk)
    (xs ys : List (List Nat × Nat × Bool)) :
    pushAll q (xs ++ ys) =
      ((pushAll (pushAll q xs).1 ys).1,
        (pushAll q xs).2 + (pushAll (pushAll q xs).1 ys).2) := by
  induction xs generalizing q with
  | nil => simp [pushAll]
  | cons b rest ih =>
      simp [List.cons_append, pushAll, ih, Nat.add_assoc]

/-- Claim C3, counterexample: pushing onto a full queue (3500 retained
blocks) drops the block but returns the error code ESP_ERR_NO_MEM to the
caller, so a drop is reported as an error return rather than never raising
an error; no drop counter exists in the code, the drop is only logged. -/
theorem c3_counterexample :
    (audio_playback_queue_push
        (List.replicate 3500 (mkChunk ([], 0, false))) [] 1 false).2 =
      EspErr.errNoMem ∧ EspErr.errNoMem ≠ EspErr.ok := by
  constructor
  · have h : ¬ (List.replicate 3500 (mkChunk ([], 0, false))).length <
        AUDIO_QUEUE_LENGTH := by
      rw [List.length_replicate]
      decide
    simp only [audio_playback_queue_push, if_neg h]
  · decide

/-- Claim C3 (amended): audio_playback_queue_push is non-blocking and
accepts a block iff free capacity exists; pushing capacity + 1 blocks
(capacity = 3500) without any pop results in exactly one dropped block and
3500 retained blocks in original FIFO order; a drop is logged and reported
to the caller through an ESP_ERR_NO_MEM return value (which the real-time
receive path ignores), and no drop counter is maintained. -/
theorem c3_push_capacity (q : List AudioChunk) (d : List Nat) (s : Nat)
    (l : Bool) (blocks : List (List Nat × Nat × Bool)) :
    ((audio_playback_queue_push q d s l).2 = EspErr.ok ↔
        q.length < AUDIO_QUEUE_LENGTH) ∧
    ((audio_playback_queue_push q d s l).2 = EspErr.ok →
        (audio_playback_queue_push q d s l).1 = q ++ [mkChunk (d, s, l)]) ∧
    ((audio_playback_queue_push q d s l).2 = EspErr.errNoMem →
        (audio_playback_queue_push q d s l).1 = q) ∧
    (blocks.length = AUDIO_QUEUE_LENGTH + 1 →
        pushAll [] blocks = ((blocks.take AUDIO_QUEUE_LENGTH).map mkChunk, 1)) := by
  refine ⟨?_, ?_, ?_, ?_⟩
  · unfold audio_playback_queue_push
    by_cases h : q.length < AUDIO_QUEUE_LENGTH
    · simp [h]
    · simp [h]
  · intro h
    unfold audio_playback_queue_push at h ⊢
    by_cases hq : q.length < AUDIO_QUEUE_LENGTH
    · simp [hq, mkChunk]
    · simp [hq] at h
  · intro h
    unfold audio_playback_queue_push at h ⊢
    by_cases hq : q.length < AUDIO_QUEUE_LENGTH
    · simp [hq] at h
    · simp [hq]
  · intro hlen
    obtain ⟨z, hz⟩ : ∃ z, blocks.drop AUDIO_QUEUE_LENGTH = [z] := by
      rw [← List.length_eq_one, List.length_drop, hlen]
      omega
    have hsplit : blocks = blocks.take AUDIO_QUEUE_LENGTH ++ [z] := by
      rw [← hz, List.take_append_drop]
    have htake : (blocks.take AUDIO_QUEUE_LENGTH).length = AUDIO_QUEUE_LENGTH := by
      rw [List.length_take, hlen]
      omega
    have hfirst : pushAll [] (blocks.take AUDIO_QUEUE_LENGTH) =
        ((blocks.take AUDIO_QUEUE_LENGTH).map mkChunk, 0) := by
      apply pushAll_no_drop
      simp only [List.length_nil]
      omega
    have hmaplen : ((blocks.take AUDIO_QUEUE_LENGTH).map mkChunk).length =
        AUDIO_QUEUE_LENGTH := by
      rw [List.length_map, htake]
    conv_lhs => rw [hsplit]
    rw [pushAll_append]
    rw [hfirst]
    simp only [pushAll, audio_playback_queue_push,
      if_neg (by omega : ¬ ((blocks.take AUDIO_QUEUE_LENGTH).map mkChunk).length <
        AUDIO_QUEUE_LENGTH)]
    simp

/-- Witness for c3_push_capacity: the acceptance cases at an empty and a
full queue, and the capacity-plus-one batch at 3501 identical blocks. -/
theorem c3_push_capacity_witness :
    (audio_playback_queue_push [] [] 0 false).1 = [mkChunk ([], 0, false)] ∧
    (audio_playback_queue_push
        (List.replicate 3500 (mkChunk ([], 0, false))) [] 0 false).1 =
      List.replicate 3500 (mkChunk ([], 0, false)) ∧
    pushAll [] (List.replicate 3501 ([], 0, false)) =
      (((List.replicate 3501 (([], 0, false) : List Nat × Nat × Bool)).take
          3500).map mkChunk, 1) := by
  refine ⟨?_, ?_, ?_⟩
  · have h := (c3_push_capacity [] [] 0 false []).2.1 (by decide)
    simpa using h
  · refine (c3_push_capacity (List.replicate 3500 (mkChunk ([], 0, false)))
      [] 0 false []).2.2.1 ?_
    have h : ¬ (List.replicate 3500 (mkChunk ([], 0, false))).length <
        AUDIO_QUEUE_LENGTH := by
      rw [List.length_replicate]
      decide
    simp only [audio_playback_queue_push, if_neg h]
  · refine (c3_push_capacity [] [] 0 false _).2.2.2 ?_
    rw [List.length_replicate]
    decide

/-- The loss-tracking statics of udp_client.c: last_received_seq and
packets_lost, both uint32_t. -/
structure RxState where
  last_received_seq : Nat
  packets_lost : Nat
deriving DecidableEq

/-- The packet-loss detection block that udp_receive_task runs for every
PLAY_AUDIO and PLAY_AUDIO_LAST message of length at least 5: when both the
arriving sequence and the stored one are non-zero and the arriving sequence
differs from last_received_seq + 1 (computed in uint32_t, hence the
modulus), the uint32_t difference seq - last_received_seq - 1 is added to
packets_lost (uint32_t addition); last_received_seq always advances to the
arriving sequence. -/
def lossStep (st : RxState) (seq : Nat) : RxState :=
  if 0 < seq ∧ 0 < st.last_received_seq ∧
      seq ≠ (st.last_received_seq + 1) % UINT32_MOD then
    ⟨seq, (st.packets_lost +
      (seq + UINT32_MOD - st.last_received_seq - 1) % UINT32_MOD) % UINT32_MOD⟩
  else
    ⟨seq, st.packets_lost⟩

/-- The little-endian uint32_t sequence number read from bytes 1..4 of the
receive buffer. -/
def decodeSeq (msg : List Nat) : Nat :=
  msg.getD 1 0 + msg.getD 2 0 * 256 + msg.getD 3 0 * 65536 +
    msg.getD 4 0 * 16777216

/-- Observable actions of udp_receive_task while processing one datagram:
a call of audio_playback_queue_push with the (possibly truncated) payload,
and an invocation of the registered state callback. -/
inductive RxEvent where
  | push (data : List Nat) (seq : Nat) (isLast : Bool)
  | stateCb (s : VoiceState)
deriving DecidableEq

/-- Processing of one received datagram by udp_receive_task in udp_client.c
(the switch on the message-type byte), for a datagram of positive length.
Message types: 0x20 PLAY_AUDIO (32), 0x21 PLAY_AUDIO_LAST (33),
0x30 STATE_IDLE (48), 0x32 STATE_AI_SPEAKING (50); anything else is
ignored.  Audio messages shorter than 5 bytes are ignored; oversized
payloads are truncated to 1440 bytes; empty payloads leave the switch via
break before any push - in the LAST branch this break also skips the
loss-tracking reset that otherwise follows the push. -/
def processMessage (st : RxState) (msg : List Nat) : RxState × List RxEvent :=
  match msg.head? with
  | none => (st, [])
  | some t =>
    if t = 32 then
      if 5 ≤ msg.length then
        let seq := decodeSeq msg
        let st1 := lossStep st seq
        if msg.length - 5 = 0 then (st1, [])
        else (st1, [RxEvent.push ((msg.drop 5).take 1440) seq false])
      else (st, [])
    else if t = 33 then
      if 5 ≤ msg.length then
        let seq := decodeSeq msg
        let st1 := lossStep st seq
        if msg.length - 5 = 0 then (st1, [])
        else (⟨0, 0⟩, [RxEvent.push ((msg.drop 5).take 1440) seq true])
      else (st, [])
    else if t = 48 then (st, [RxEvent.stateCb VoiceState.idle])
    else if t = 50 then (st, [RxEvent.stateCb VoiceState.aiSpeaking])
    else (st, [])

/-- Sequential processing of a list of datagrams, tracking the
loss-detection state. -/
def runMessages (st : RxState) : List (List Nat) → RxState
  | [] => st
  | m :: rest => runMessages (processMessage st m).1 rest

/-- A PLAY_AUDIO datagram carrying a one-byte sequence number s (s < 256)
and a single payload byte. -/
def mkAudioMsg (s : Nat) : List Nat := [32, s, 0, 0, 0, 0]

/-- Claim C4: feeding inbound audio blocks with sequences 5, 6, 8, 9 from
the initial state records a cumulative loss of exactly 1 (the missing 7)
and leaves last_received_seq = 9; in general, for every PLAY_AUDIO datagram
of length at least 5 the receiver applies the loss step, which advances
last_received_seq to the arriving sequence, records a gap iff the arriving
sequence differs from last_received_seq + 1 and both are non-zero, and for
an in-order forward jump adds exactly sequence - last_received_seq - 1 to
the lost counter. -/
theorem c4_loss_detection (st : RxState) (seq : Nat) (msg : List Nat)
    (hlast : st.last_received_seq < UINT32_MOD)
    (hlost : st.packets_lost < UINT32_MOD)
    (hseq : seq < UINT32_MOD) :
    runMessages ⟨0, 0⟩ [mkAudioMsg 5, mkAudioMsg 6, mkAudioMsg 8, mkAudioMsg 9] =
      ⟨9, 1⟩ ∧
    (msg.head? = some 32 → 5 ≤ msg.length →
      (processMessage st msg).1 = lossStep st (decodeSeq msg)) ∧
    (lossStep st seq).last_received_seq = seq ∧
    ((lossStep st seq).packets_lost ≠ st.packets_lost ↔
      (0 < seq ∧ 0 < st.last_received_seq ∧
        seq ≠ (st.last_received_seq + 1) % UINT32_MOD)) ∧
    (0 < st.last_received_seq → st.last_received_seq < seq →
      seq ≠ st.last_received_seq + 1 →
      (lossStep st seq).packets_lost =
        (st.packets_lost + (seq - st.last_received_seq - 1)) % UINT32_MOD) := by
  refine ⟨by decide, ?_, ?_, ?_, ?_⟩
  · intro hh hlen
    cases msg with
    | nil => simp at hh
    | cons t tail =>
        simp only [List.head?_cons, Option.some.injEq] at hh
        subst hh
        simp only [List.length_cons] at hlen
        have ha : 4 ≤ tail.length := by omega
        by_cases h0 : tail.length - 4 = 0
        · simp [processMessage, ha, h0]
        · simp [processMessage, ha, h0]
  · unfold lossStep
    split
    · rfl
    · rfl
  · unfold lossStep
    split_ifs with hc
    · obtain ⟨h1, h2, h3⟩ := hc
      refine ⟨fun _ => ⟨h1, h2, h3⟩, fun _ => ?_⟩
      show (st.packets_lost +
        (seq + UINT32_MOD - st.last_received_seq - 1) % UINT32_MOD) %
          UINT32_MOD ≠ st.packets_lost
      simp only [UINT32_MOD] at *
      omega
    · exact iff_of_false (by simp) hc
  · intro h1 h2 h3
    have hc : 0 < seq ∧ 0 < st.last_received_seq ∧
        seq ≠ (st.last_received_seq + 1) % UINT32_MOD := by
      refine ⟨by omega, h1, ?_⟩
      simp only [UINT32_MOD] at *
      omega
    simp only [lossStep, if_pos hc]
    show (st.packets_lost +
      (seq + UINT32_MOD - st.last_received_seq - 1) % UINT32_MOD) %
        UINT32_MOD = _
    simp only [UINT32_MOD] at *
    omega

/-- Witness for c4_loss_detection at the gap state 6 receiving sequence 8. -/
theorem c4_loss_detection_witness :
    runMessages ⟨0, 0⟩ [mkAudioMsg 5, mkAudioMsg 6, mkAudioMsg 8, mkAudioMsg 9] =
      ⟨9, 1⟩ ∧
    (processMessage ⟨6, 0⟩ [32, 8, 0, 0, 0, 1]).1 =
      lossStep ⟨6, 0⟩ (decodeSeq [32, 8, 0, 0, 0, 1]) ∧
    (lossStep ⟨6, 0⟩ 8).packets_lost = (0 + (8 - 6 - 1)) % UINT32_MOD := by
  have h := c4_loss_detection ⟨6, 0⟩ 8 [32, 8, 0, 0, 0, 1]
    (by decide) (by decide) (by decide)
  exact ⟨h.1, h.2.1 (by decide) (by decide),
    h.2.2.2.2 (by decide) (by decide) (by decide)⟩

/-- Claim C7, counterexample: a PLAY_AUDIO_LAST datagram with a zero-length
payload (here sequence 9 arriving in state last_received_seq = 3,
packets_lost = 2) leaves the switch via break before the reset, so
afterwards last_received_seq = 9 and packets_lost = 7: neither counter is
reset to zero. -/
theorem c7_counterexample :
    processMessage ⟨3, 2⟩ [33, 9, 0, 0, 0] = (⟨9, 7⟩, []) ∧
    (9 : Nat) ≠ 0 ∧ (7 : Nat) ≠ 0 := by
  refine ⟨by decide, by decide, by decide⟩

/-- Claim C7 (amended): for every inbound PLAY_AUDIO_LAST message whose
payload is non-empty - including an oversized payload, which is truncated
to 1440 bytes and still queued - both last_received_seq and the cumulative
lost counter are reset to zero afterward; a PLAY_AUDIO_LAST message with a
zero-length payload is dropped before the reset, leaving the loss-tracking
state as the ordinary loss step updates it. -/
theorem c7_last_reset (st : RxState) (msg : List Nat)
    (hh : msg.head? = some 33) :
    (6 ≤ msg.length → processMessage st msg =
        (⟨0, 0⟩, [RxEvent.push ((msg.drop 5).take 1440) (decodeSeq msg) true])) ∧
    (msg.length = 5 → processMessage st msg = (lossStep st (decodeSeq msg), [])) := by
  cases msg with
  | nil => simp at hh
  | cons t tail =>
      simp only [List.head?_cons, Option.some.injEq] at hh
      subst hh
      constructor
      · intro h6
        simp only [List.length_cons] at h6
        have h1 : 4 ≤ tail.length := by omega
        have h2 : ¬ (tail.length - 4 = 0) := by omega
        simp [processMessage, h1, h2]
      · intro h5
        simp only [List.length_cons] at h5
        have h1 : 4 ≤ tail.length := by omega
        have h2 : tail.length - 4 = 0 := by omega
        simp [processMessage, h1, h2]

/-- Witness for c7_last_reset: a one-byte payload resets the tracker, an
empty payload does not. -/
theorem c7_last_reset_witness :
    processMessage ⟨4, 1⟩ [33, 2, 0, 0, 0, 7] =
      (⟨0, 0⟩, [RxEvent.push (([33, 2, 0, 0, 0, 7].drop 5).take 1440)
        (decodeSeq [33, 2, 0, 0, 0, 7]) true]) ∧
    processMessage ⟨4, 1⟩ [33, 2, 0, 0, 0] =
      (lossStep ⟨4, 1⟩ (decodeSeq [33, 2, 0, 0, 0]), []) :=
  ⟨(c7_last_reset ⟨4, 1⟩ [33, 2, 0, 0, 0, 7] (by decide)).1 (by decide),
   (c7_last_reset ⟨4, 1⟩ [33, 2, 0, 0, 0] (by decide)).2 (by decide)⟩

/-- Claim C10: the sequence-gap arithmetic is unsigned 32-bit, so an
inbound block whose non-zero sequence is at most the stored non-zero
last_received_seq still records a gap, equal to
(sequence - last_received_seq - 1) mod 2^32, added to the lost counter in
uint32_t arithmetic; concretely a single one-step reordering (sequence 5
after 6, starting from zero losses) inflates the counter to 2^32 - 2. -/
theorem c10_unsigned_wrap (st : RxState) (seq : Nat)
    (h0 : 0 < seq) (hle : seq ≤ st.last_received_seq)
    (hlt : st.last_received_seq < UINT32_MOD) :
    lossStep st seq =
      ⟨seq, (st.packets_lost +
        (seq + UINT32_MOD - st.last_received_seq - 1) % UINT32_MOD) %
          UINT32_MOD⟩ ∧
    lossStep ⟨6, 0⟩ 5 = ⟨5, 4294967294⟩ := by
  constructor
  · have hc : 0 < seq ∧ 0 < st.last_received_seq ∧
        seq ≠ (st.last_received_seq + 1) % UINT32_MOD := by
      refine ⟨h0, by omega, ?_⟩
      simp only [UINT32_MOD] at *
      omega
    simp only [lossStep, if_pos hc]
  · decide

/-- Witness for c10_unsigned_wrap at the duplicate delivery of sequence 6. -/
theorem c10_unsigned_wrap_witness :
    lossStep ⟨6, 3⟩ 6 =
      ⟨6, (3 + (6 + UINT32_MOD - 6 - 1) % UINT32_MOD) % UINT32_MOD⟩ :=
  (c10_unsigned_wrap ⟨6, 3⟩ 6 (by decide) (by decide) (by decide)).1

/-- The while loop of audio_calculate_rms in audio_handler.c: with x the
current guess, it computes y = (x + mean / x) / 2 and iterates while
y < x, returning x on exit.  The entry value y = (x + 1) / 2 used by the C
code equals (x + mean / x) / 2 at x = mean (mean / mean = 1 for
mean >= 1), so the whole loop is this recursion started at guess = mean. -/
def babIter (mean guess : Nat) : Nat :=
  if h : (guess + mean / guess) / 2 < guess then
    babIter mean ((guess + mean / guess) / 2)
  else
    guess
termination_by guess

/-- The integer square root computed by audio_calculate_rms: 0 for mean 0,
otherwise the Babylonian loop started at mean. -/
def isqrtC (mean : Nat) : Nat :=
  if mean = 0 then 0 else babIter mean mean

/-- The uint64_t accumulation loop of audio_calculate_rms: each int16_t
sample is squared in int32_t (no overflow for 16-bit inputs) and added to
the 64-bit unsigned sum, which wraps modulo 2^64. -/
def sumSquaresAux : List Int → Nat → Nat
  | [], acc => acc
  | s :: rest, acc => sumSquaresAux rest ((acc + (s * s).toNat) % UINT64_MOD)

/-- audio_calculate_rms from audio_handler.c.  The sample pointer and
count are modelled as an optional list of int16_t values (none is the NULL
pointer, the list length is sample_count).  The mean is the uint64_t sum
divided by the count and truncated to uint32_t, and the result is the
integer square root of the mean. -/
def audio_calculate_rms (samples : Option (List Int)) : Nat :=
  match samples with
  | none => 0
  | some l =>
      if l.length = 0 then 0
      else isqrtC ((sumSquaresAux l 0 / l.length) % UINT32_MOD)

/-- The Babylonian loop of the C code is exactly the iteration that
defines Nat.sqrt, just started at a different guess. -/
lemma babIter_eq_iter (mean guess : Nat) :
    babIter mean guess = Nat.sqrt.iter mean guess := by
  unfold babIter Nat.sqrt.iter
  by_cases h : (guess + mean / guess) / 2 < guess
  · simpa only [dif_pos h] using babIter_eq_iter mean ((guess + mean / guess) / 2)
  · simp only [dif_neg h]
termination_by guess

/-- The integer square root routine of audio_calculate_rms agrees with
Nat.sqrt on every input. -/
lemma isqrtC_eq_sqrt (mean : Nat) : isqrtC mean = Nat.sqrt mean := by
  unfold isqrtC
  by_cases h0 : mean = 0
  · simp [h0]
  · rw [if_neg h0, babIter_eq_iter]
    have h1 : Nat.sqrt.iter mean mean * Nat.sqrt.iter mean mean ≤ mean :=
      Nat.sqrt.iter_sq_le mean mean
    have h2 : mean < (Nat.sqrt.iter mean mean + 1) * (Nat.sqrt.iter mean mean + 1) := by
      refine Nat.sqrt.lt_iter_succ_sq mean mean ?_
      nlinarith [Nat.pos_of_ne_zero h0]
    exact Nat.eq_sqrt.mpr ⟨h1, h2⟩

/-- Without 64-bit wrap-around the accumulation loop computes the plain
sum of squares. -/
lemma sumSquaresAux_eq (l : List Int) (acc : Nat)
    (h : acc + (l.map (fun s => (s * s).toNat)).sum < UINT64_MOD) :
    sumSquaresAux l acc = acc + (l.map (fun s => (s * s).toNat)).sum := by
  induction l generalizing acc with
  | nil => simp [sumSquaresAux]
  | cons s rest ih =>
      simp only [List.map_cons, List.sum_cons] at h
      simp only [sumSquaresAux, List.map_cons, List.sum_cons]
      rw [Nat.mod_eq_of_lt (by omega), ih _ (by omega)]
      omega

/-- The squared sample value as a natural number is the square of the
absolute value. -/
lemma sq_toNat (s : Int) : (s * s).toNat = s.natAbs * s.natAbs := by
  rw [← Int.natAbs_mul_self]
  exact Int.toNat_natCast _

/-- A bound on the sum of squares of samples of bounded magnitude. -/
lemma sum_squares_le (l : List Int) (b : Nat) (h : ∀ s ∈ l, s.natAbs ≤ b) :
    (l.map (fun s => (s * s).toNat)).sum ≤ l.length * (b * b) := by
  induction l with
  | nil => simp
  | cons s rest ih =>
      simp only [List.map_cons, List.sum_cons, List.length_cons]
      have hs : s.natAbs ≤ b := h s (List.mem_cons_self s rest)
      have h1 : (s * s).toNat ≤ b * b := by
        rw [sq_toNat]
        exact Nat.mul_le_mul hs hs
      have h2 := ih (fun x hx => h x (List.mem_cons_of_mem s hx))
      calc (s * s).toNat + (rest.map (fun s => (s * s).toNat)).sum
          ≤ b * b + rest.length * (b * b) := Nat.add_le_add h1 h2
        _ = (rest.length + 1) * (b * b) := by ring

/-- Dividing a sum bounded by len * c by len gives at most c. -/
lemma div_le_bound (a len c : Nat) (hlen : len ≠ 0) (h : a ≤ len * c) :
    a / len ≤ c := by
  have h2 : a / len ≤ len * c / len := Nat.div_le_div_right h
  rwa [Nat.mul_div_cancel_left c (Nat.pos_of_ne_zero hlen)] at h2

/-- Claim C6: audio_calculate_rms returns 0 for a NULL sample pointer, a
zero sample count, and a block of all-zero samples; a block of any count
(count is a 32-bit size_t) of a single repeated non-zero amplitude A
returns exactly A with no overflow; and in general it returns the integer
square root of the mean of the squared samples. -/
theorem c6_rms_correct (l : List Int) (n A : Nat) :
    audio_calculate_rms none = 0 ∧
    audio_calculate_rms (some []) = 0 ∧
    ((∀ s ∈ l, s = 0) → audio_calculate_rms (some l) = 0) ∧
    (0 < n → n < UINT32_MOD → 0 < A → A ≤ 32767 →
      audio_calculate_rms (some (List.replicate n (A : Int))) = A) ∧
    (l ≠ [] → (∀ s ∈ l, s.natAbs ≤ 32768) → l.length < UINT32_MOD →
      audio_calculate_rms (some l) =
        Nat.sqrt ((l.map (fun s => (s * s).toNat)).sum / l.length)) := by
  refine ⟨rfl, rfl, ?_, ?_, ?_⟩
  · intro hz
    by_cases hl : l.length = 0
    · simp [audio_calculate_rms, hl]
    · have hsum : (l.map (fun s => (s * s).toNat)).sum = 0 := by
        apply List.sum_eq_zero
        intro x hx
        obtain ⟨s, hs, rfl⟩ := List.mem_map.mp hx
        simp [hz s hs]
      have haux := sumSquaresAux_eq l 0 (by rw [hsum]; decide)
      simp [audio_calculate_rms, hl, haux, hsum, isqrtC]
  · intro hn hnM hA hAle
    have hlen : (List.replicate n (A : Int)).length = n :=
      List.length_replicate _ _
    have hsum : ((List.replicate n (A : Int)).map (fun s => (s * s).toNat)).sum =
        n * (A * A) := by
      rw [List.map_replicate, List.sum_replicate, smul_eq_mul]
      congr 1
    have hAA : A * A ≤ 32767 * 32767 := Nat.mul_le_mul hAle hAle
    have hfit : 0 + ((List.replicate n (A : Int)).map
        (fun s => (s * s).toNat)).sum < UINT64_MOD := by
      rw [Nat.zero_add, hsum]
      have h2 : n * (A * A) ≤ (UINT32_MOD - 1) * (32767 * 32767) :=
        Nat.mul_le_mul (by omega) hAA
      simp only [UINT32_MOD, UINT64_MOD] at *
      omega
    have haux := sumSquaresAux_eq (List.replicate n (A : Int)) 0 hfit
    have hl0 : ¬ ((List.replicate n (A : Int)).length = 0) := by
      rw [hlen]
      omega
    simp only [audio_calculate_rms, if_neg hl0, haux, Nat.zero_add, hsum, hlen]
    rw [Nat.mul_div_cancel_left (A * A) hn]
    rw [Nat.mod_eq_of_lt (by simp only [UINT32_MOD]; omega)]
    rw [isqrtC_eq_sqrt, Nat.sqrt_eq]
    rw [if_neg (show ¬ n = 0 by omega)]
  · intro hne hb hlenM
    have hl0 : l.length ≠ 0 := by
      simpa [List.length_eq_zero] using hne
    have hsum_le := sum_squares_le l 32768 hb
    have hfit : 0 + (l.map (fun s => (s * s).toNat)).sum < UINT64_MOD := by
      rw [Nat.zero_add]
      have h2 : l.length * (32768 * 32768) ≤ (UINT32_MOD - 1) * (32768 * 32768) :=
        Nat.mul_le_mul (by omega) (le_refl _)
      simp only [UINT32_MOD, UINT64_MOD] at *
      omega
    have haux := sumSquaresAux_eq l 0 hfit
    have hmean : (l.map (fun s => (s * s).toNat)).sum / l.length ≤ 32768 * 32768 :=
      div_le_bound _ _ _ hl0 hsum_le
    simp only [audio_calculate_rms, if_neg hl0, haux, Nat.zero_add]
    rw [Nat.mod_eq_of_lt (by simp only [UINT32_MOD] at *; omega)]
    rw [isqrtC_eq_sqrt]

/-- Witness for c6_rms_correct: all-zero, repeated-amplitude and general
blocks at concrete inputs. -/
theorem c6_rms_correct_witness :
    audio_calculate_rms (some [0, 0]) = 0 ∧
    audio_calculate_rms (some (List.replicate 2 (3 : Int))) = 3 ∧
    audio_calculate_rms (some [5, 5]) =
      Nat.sqrt ((([5, 5] : List Int).map (fun s => (s * s).toNat)).sum /
        ([5, 5] : List Int).length) :=
  ⟨(c6_rms_correct [0, 0] 1 1).2.2.1 (by decide),
   (c6_rms_correct [] 2 3).2.2.2.1 (by decide) (by decide) (by decide) (by decide),
   (c6_rms_correct [5, 5] 1 1).2.2.2.2 (by decide) (by decide) (by decide)⟩

/-- Claim C9: for every sample block of 16-bit values whose sum of squares
fits in the 64-bit accumulator, audio_calculate_rms returns at most 32768
(the integer square root of the largest possible mean of 16-bit squares). -/
theorem c9_rms_bound (l : List Int)
    (hb : ∀ s ∈ l, s.natAbs ≤ 32768)
    (hfit : (l.map (fun s => (s * s).toNat)).sum < UINT64_MOD) :
    audio_calculate_rms (some l) ≤ 32768 := by
  by_cases hl : l.length = 0
  · simp [audio_calculate_rms, hl]
  · have haux := sumSquaresAux_eq l 0 (by omega)
    have hsum_le := sum_squares_le l 32768 hb
    have hmean : (l.map (fun s => (s * s).toNat)).sum / l.length ≤ 32768 * 32768 :=
      div_le_bound _ _ _ hl hsum_le
    simp only [audio_calculate_rms, if_neg hl, haux, Nat.zero_add]
    rw [isqrtC_eq_sqrt]
    calc Nat.sqrt ((l.map (fun s => (s * s).toNat)).sum / l.length % UINT32_MOD)
        ≤ Nat.sqrt (32768 * 32768) :=
          Nat.sqrt_le_sqrt (le_trans (Nat.mod_le _ _) hmean)
      _ = 32768 := Nat.sqrt_eq 32768

/-- Witness for c9_rms_bound at the most negative 16-bit sample, where the
bound 32768 is attained. -/
theorem c9_rms_bound_witness :
    audio_calculate_rms (some [(-32768 : Int)]) ≤ 32768 :=
  c9_rms_bound [(-32768 : Int)] (by decide) (by decide)

/-- Actions of queue_playback_task on the output device and the network:
enabling and disabling the I2S TX channel, writing a (volume-scaled) audio
chunk, writing a zero-filled silence buffer, and sending the
playback-complete datagram.  The per-sample volume scaling applied before
a chunk write is floating point and does not affect which actions occur,
so the write action carries the chunk itself. -/
inductive DeviceAction where
  | enable
  | writeChunk (c : AudioChunk)
  | writeSilence
  | sendComplete
  | disable
deriving DecidableEq

/-- The pre-buffer wait loop of queue_playback_task: each iteration reads
the volatile queue_playback_active flag and the queue depth
(uxQueueMessagesWaiting); the loop spins while the flag is set and the
depth is below MIN_PREBUFFER_CHUNKS.  The observation list is the sequence
of reads; the function returns true when the loop exits within the given
observations and false when they are exhausted with the loop still
spinning. -/
def preBufferDone : List (Bool × Nat) → Bool
  | [] => false
  | p :: rest =>
      if p.1 ∧ p.2 < MIN_PREBUFFER_CHUNKS then preBufferDone rest else true

/-- Result of the xQueueReceive call of one main-loop iteration: either a
chunk arrived, or the 500 ms timeout fired (in which case the loop reads
the active flag once more before deciding to write silence). -/
inductive LoopObs where
  | popped (c : AudioChunk)
  | timeout (activeInner : Bool)
deriving DecidableEq

/-- The main while loop of queue_playback_task.  Each iteration reads the
active flag (first component) and then the pop result; played counts
total_chunks_played.  Returns the device actions of the loop in order and
whether the loop exited (by the flag or by the final chunk) as opposed to
the observations running out while the loop is still live. -/
def mainLoop : Nat → List (Bool × LoopObs) → List DeviceAction × Bool
  | _, [] => ([], false)
  | played, ob :: rest =>
      if ob.1 then
        match ob.2 with
        | LoopObs.popped c =>
            if c.is_last_chunk then
              ([DeviceAction.writeChunk c, DeviceAction.sendComplete], true)
            else
              let r := mainLoop (played + 1) rest
              (DeviceAction.writeChunk c :: r.1, r.2)
        | LoopObs.timeout inner =>
            if inner ∧ 0 < played then
              let r := mainLoop played rest
              (DeviceAction.writeSilence :: r.1, r.2)
            else
              mainLoop played rest
      else ([], true)

/-- The shutdown path of queue_playback_task after its loop exits: a
silence flush of the DMA buffers (when its calloc succeeds) followed by
disabling the I2S TX channel. -/
def cleanupActions (silOk : Bool) : List DeviceAction :=
  (if silOk then [DeviceAction.writeSilence] else []) ++ [DeviceAction.disable]

/-- queue_playback_task from audio_handler.c as a trace of device actions,
parameterised by the environment: whether i2s_channel_enable succeeds, the
pre-buffer wait observations, the main-loop observations, and whether the
shutdown silence buffer allocation succeeds.  The I2S TX channel is
enabled first, before the pre-buffer wait; on enable failure the task
exits at once; if the observations end while a loop is still live the
trace ends there. -/
def queue_playback_task (enableOk : Bool) (pre : List (Bool × Nat))
    (obs : List (Bool × LoopObs)) (silOk : Bool) : List DeviceAction :=
  DeviceAction.enable ::
    (if enableOk then
      (if preBufferDone pre then
        (mainLoop 0 obs).1 ++
          (if (mainLoop 0 obs).2 then cleanupActions silOk else [])
      else [])
    else [])

/-- While every read sees the active flag set and the depth below the
threshold, the pre-buffer wait keeps spinning. -/
lemma preBufferDone_false (pre : List (Bool × Nat))
    (h : ∀ p ∈ pre, p.1 = true ∧ p.2 < MIN_PREBUFFER_CHUNKS) :
    preBufferDone pre = false := by
  induction pre with
  | nil => rfl
  | cons p rest ih =>
      obtain ⟨h1, h2⟩ := h p (List.mem_cons_self p rest)
      have hc : (p.1 ∧ p.2 < MIN_PREBUFFER_CHUNKS) := ⟨by simp [h1], h2⟩
      simp only [preBufferDone, if_pos hc]
      exact ih (fun q hq => h q (List.mem_cons_of_mem p hq))

/-- Claim C5, counterexample: a run in which stop is requested while the
task is still pre-buffering (the first wait read sees the active flag
cleared with queue depth 0) still enables the output device at task start
and still writes a silence flush before disabling it: the trace is not
free of output enabling. -/
theorem c5_counterexample :
    queue_playback_task true [(false, 0)] [(false, LoopObs.timeout false)] true =
      [DeviceAction.enable, DeviceAction.writeSilence, DeviceAction.disable] ∧
    DeviceAction.enable ∈
      queue_playback_task true [(false, 0)] [(false, LoopObs.timeout false)] true := by
  refine ⟨by decide, by decide⟩

/-- Claim C5 (amended): the consumer enables the output device when the
playback task starts, before pre-buffering; while the active flag stays
set and the queue depth stays below the pre-buffer threshold of 10 blocks
it performs no device write at all; every trace begins with the enable;
and when stop is requested while still pre-buffering the consumer runs
only its shutdown sequence - an optional silence flush and the device
disable - and never writes any audio chunk. -/
theorem c5_prebuffer_gate (enableOk silOk : Bool) (pre : List (Bool × Nat))
    (obs : List (Bool × LoopObs)) (ob : LoopObs)
    (rest : List (Bool × LoopObs)) :
    ((∀ p ∈ pre, p.1 = true ∧ p.2 < MIN_PREBUFFER_CHUNKS) →
      queue_playback_task enableOk pre obs silOk = [DeviceAction.enable]) ∧
    (queue_playback_task enableOk pre obs silOk).head? =
      some DeviceAction.enable ∧
    (preBufferDone pre = true →
      queue_playback_task true pre ((false, ob) :: rest) silOk =
        DeviceAction.enable :: cleanupActions silOk) ∧
    (∀ c, DeviceAction.writeChunk c ∉
      DeviceAction.enable :: cleanupActions silOk) := by
  refine ⟨?_, ?_, ?_, ?_⟩
  · intro h
    have hp := preBufferDone_false pre h
    simp [queue_playback_task, hp]
  · simp [queue_playback_task]
  · intro hpre
    simp [queue_playback_task, hpre, mainLoop]
  · intro c
    cases silOk <;> simp [cleanupActions]

/-- Witness for c5_prebuffer_gate: a quiet pre-buffer run that never
exits the wait, and an aborted run that goes straight to shutdown. -/
theorem c5_prebuffer_gate_witness :
    queue_playback_task true [(true, 3), (true, 9)] [] true =
      [DeviceAction.enable] ∧
    queue_playback_task true [(false, 0)] [(false, LoopObs.timeout true)] false =
      DeviceAction.enable :: cleanupActions false :=
  ⟨(c5_prebuffer_gate true true [(true, 3), (true, 9)] []
      (LoopObs.timeout true) []).1 (by decide),
   (c5_prebuffer_gate true false [(false, 0)] [] (LoopObs.timeout true) []).2.2.1
      (by decide)⟩

/-- Claim C8: setting the voice state to its current value is a no-op with
no side effect, and the side effects of a transition run exactly once even
when the same state-set is requested redundantly. -/
theorem c8_same_state_noop (s t : VoiceState) :
    set_voice_state s s = (s, []) ∧
    set_voice_state (set_voice_state s t).1 t = ((set_voice_state s t).1, []) := by
  cases s <;> cases t <;> exact ⟨by decide, by decide⟩

/-- Claim C1, counterexample: in state Idle an RMS loudness exactly equal to
the normal-speech threshold (100) does not transition to UserSpeaking; the
comparison in main.c is strict, so the evaluation leaves the state Idle and
sends nothing. -/
theorem c1_counterexample :
    voice_assistant_step 100 0 ⟨VoiceState.idle, 0, 7⟩ =
      (⟨VoiceState.idle, 0, 7⟩, []) := by
  decide

/-- Claim C1 (amended): in state Idle, any loudness at or below the
normal-speech threshold (100) leaves the state Idle with no event, and any
loudness strictly above the threshold transitions to UserSpeaking on that
evaluation, resetting the outgoing sequence to 0 and forwarding the
triggering block immediately as sequence 0 (after which the counter is 1). -/
theorem c1_idle_boundary (rms : Nat) (now ss : Int) (q : Nat) :
    (rms ≤ RMS_THRESHOLD_NORMAL →
      voice_assistant_step rms now ⟨VoiceState.idle, ss, q⟩ =
        (⟨VoiceState.idle, ss, q⟩, [])) ∧
    (RMS_THRESHOLD_NORMAL < rms →
      voice_assistant_step rms now ⟨VoiceState.idle, ss, q⟩ =
        (⟨VoiceState.userSpeaking, 0, 1⟩, [VaEvent.sendAudio 0])) := by
  constructor
  · intro h
    simp only [voice_assistant_step, if_neg (by omega : ¬ RMS_THRESHOLD_NORMAL < rms)]
  · intro h
    simp only [voice_assistant_step, if_pos h]
    rfl

/-- Witness for c1_idle_boundary at loudness 99 and 101. -/
theorem c1_idle_boundary_witness :
    voice_assistant_step 99 0 ⟨VoiceState.idle, 0, 0⟩ =
      (⟨VoiceState.idle, 0, 0⟩, []) ∧
    voice_assistant_step 101 0 ⟨VoiceState.idle, 0, 0⟩ =
      (⟨VoiceState.userSpeaking, 0, 1⟩, [VaEvent.sendAudio 0]) :=
  ⟨(c1_idle_boundary 99 0 0 0).1 (by decide),
   (c1_idle_boundary 101 0 0 0).2 (by decide)⟩

/-- Claim C2, counterexample: in state UserSpeaking with the silence timer
started at time 1, a silent block evaluated at time 5001 (elapsed exactly
SILENCE_DURATION_MS = 5000 ms) does not transition to Idle, because the
comparison in main.c is strict; the state stays UserSpeaking and the block
is forwarded. -/
theorem c2_counterexample :
    voice_assistant_step 0 5001 ⟨VoiceState.userSpeaking, 1, 4⟩ =
      (⟨VoiceState.userSpeaking, 1, 5⟩, [VaEvent.sendAudio 4]) := by
  decide

/-- Claim C2 (amended): in state UserSpeaking, a loudness below the
stop-compare threshold (500) starts the silence timer if it is unstarted
and forwards the block; while the elapsed silence is at most
SILENCE_DURATION_MS (5000 ms) the state stays UserSpeaking and every block
is forwarded; once the elapsed silence strictly exceeds 5000 ms the state
transitions to Idle (stopping playback) and the block that causes the
transition is not forwarded; any loudness at or above the threshold resets
the silence timer to zero and forwards the block. -/
theorem c2_silence_timeout (rms : Nat) (now ss : Int) (q : Nat) :
    (rms < AUDIO_RMS_STOP_THRESHOLD → ss ≠ 0 →
      SILENCE_DURATION_MS < now - ss →
      voice_assistant_step rms now ⟨VoiceState.userSpeaking, ss, q⟩ =
        (⟨VoiceState.idle, 0, q⟩, [VaEvent.effect SideEffect.playbackStop])) ∧
    (rms < AUDIO_RMS_STOP_THRESHOLD → ss ≠ 0 →
      now - ss ≤ SILENCE_DURATION_MS →
      voice_assistant_step rms now ⟨VoiceState.userSpeaking, ss, q⟩ =
        (⟨VoiceState.userSpeaking, ss, (q + 1) % UINT32_MOD⟩,
          [VaEvent.sendAudio q])) ∧
    (rms < AUDIO_RMS_STOP_THRESHOLD → ss = 0 →
      voice_assistant_step rms now ⟨VoiceState.userSpeaking, ss, q⟩ =
        (⟨VoiceState.userSpeaking, now, (q + 1) % UINT32_MOD⟩,
          [VaEvent.sendAudio q])) ∧
    (AUDIO_RMS_STOP_THRESHOLD ≤ rms →
      voice_assistant_step rms now ⟨VoiceState.userSpeaking, ss, q⟩ =
        (⟨VoiceState.userSpeaking, 0, (q + 1) % UINT32_MOD⟩,
          [VaEvent.sendAudio q])) := by
  refine ⟨fun h1 h2 h3 => ?_, fun h1 h2 h3 => ?_, fun h1 h2 => ?_, fun h1 => ?_⟩
  · simp only [voice_assistant_step, if_pos h1, if_neg h2, if_pos h3]
    rfl
  · simp only [voice_assistant_step, if_pos h1, if_neg h2,
      if_neg (by omega : ¬ SILENCE_DURATION_MS < now - ss)]
  · simp only [voice_assistant_step, if_pos h1, if_pos h2]
  · simp only [voice_assistant_step,
      if_neg (by omega : ¬ rms < AUDIO_RMS_STOP_THRESHOLD)]

/-- Witness for c2_silence_timeout at concrete loudness and time values,
covering all four branches. -/
theorem c2_silence_timeout_witness :
    voice_assistant_step 0 5002 ⟨VoiceState.userSpeaking, 1, 4⟩ =
      (⟨VoiceState.idle, 0, 4⟩, [VaEvent.effect SideEffect.playbackStop]) ∧
    voice_assistant_step 0 5000 ⟨VoiceState.userSpeaking, 1, 4⟩ =
      (⟨VoiceState.userSpeaking, 1, 5⟩, [VaEvent.sendAudio 4]) ∧
    voice_assistant_step 0 42 ⟨VoiceState.userSpeaking, 0, 4⟩ =
      (⟨VoiceState.userSpeaking, 42, 5⟩, [VaEvent.sendAudio 4]) ∧
    voice_assistant_step 500 9 ⟨VoiceState.userSpeaking, 3, 4⟩ =
      (⟨VoiceState.userSpeaking, 0, 5⟩, [VaEvent.sendAudio 4]) :=
  ⟨(c2_silence_timeout 0 5002 1 4).1 (by decide) (by decide) (by decide),
   (c2_silence_timeout 0 5000 1 4).2.1 (by decide) (by decide) (by decide),
   (c2_silence_timeout 0 42 0 4).2.2.1 (by decide) (by decide),
   (c2_silence_timeout 500 9 3 4).2.2.2 (by decide)⟩

end VoiceAssist
